import Mathlib

/-!
Verification of the zarr-serving endpoints of `tiled` (`src/tiled/server/zarr.py`)
against the natural-language specification.

The shallow embedding below translates the pure logic of the module into Lean:

* `convert_chunks_for_zarr` mirrors the chunk-grid translation
  `[min(ZARR_BLOCK_SIZE, max(*tc, 1)) for tc in tiled_chunks]`.  In Python
  `max(*tc, 1)` applied to an empty tuple `tc` is `max(1)`, which raises
  `TypeError`; this is modelled by `Option`, with `none` for the raised error.
* `parseBlockIndices` mirrors `[int(i) for i in block.split(",")]`, with
  `none` for the unhandled `ValueError` that a non-integer component raises.
* `NDArr` models a numpy array as its shape together with its row-major data;
  `NDArr.slice` models basic (clipping) slice indexing and `NDArr.pad` models
  `np.pad(array, [(0, p) for p in padding_size], mode="constant")`.
* `fetchBlockArray` mirrors the block branch of `get_zarr_array` up to the
  point where the dense padded block is handed to the codec; `get_zarr_array`
  composes it with the encode step (the codec, `tobytes`, the storage read and
  the key enumerator are external collaborators and appear as parameters).
* HTTP outcomes are modelled by `Except HttpError`; an exception that the
  handler does not catch is modelled as `HttpError.internalError` (the
  framework turns it into a 500 response).  The f-string interpolations of the
  detail messages in the source are elided; fixed constants stand for them.
* `record_timing`, `ensure_awaitable`, the `astype(..., copy=False)` layout
  no-op and the sparse `todense()` densification are external or byte-layout
  concerns and are not modelled; the storage read is taken to return a dense
  value.
-/

def ZARR_BLOCK_SIZE : Nat := 10000

def ZARR_BYTE_ORDER : String := "C"

/-- JSON values as produced by the handlers via `json.dumps`. -/
inductive JsonVal where
  | null
  | num (n : Int)
  | str (s : String)
  | arr (xs : List JsonVal)
  | obj (kvs : List (String × JsonVal))

/-- The structure families that can reach these endpoints
(`StructureFamily.array/sparse/table/container`). -/
inductive StructureFamily where
  | array
  | sparse
  | table
  | container
deriving DecidableEq

/-- A data type descriptor: either a primitive numpy dtype (carrying its
`to_numpy_str()` rendering) or a structured dtype (`StructDtype`) carrying its
ordered field names. -/
inductive DType where
  | primitive (numpyStr : String)
  | structT (fields : List String)

/-- Model of `isinstance(structure.data_type, StructDtype)`. -/
def DType.isStruct : DType → Bool
  | .primitive _ => false
  | .structT _ => true

/-- Field names of a structured dtype (`f.name for f in data_type.fields`). -/
def DType.fieldNames : DType → List String
  | .primitive _ => []
  | .structT fs => fs

/-- Model of `structure.data_type.to_numpy_str()` (external rendering for
primitive dtypes; the structured branch is unreachable in the handlers that
call it). -/
def DType.toNumpyStr : DType → String
  | .primitive s => s
  | .structT _ => ""

/-- The point-in-time structure description of an addressed entry, as the
handlers consume it: `entry.structure_family`, `entry.structure().shape`,
`entry.structure().chunks`, `entry.structure().data_type`,
`entry.structure().columns`, `entry.metadata`, and the child keys returned by
the external key enumerator (`entry.keys_range` / `entry.keys()`). -/
structure ZarrEntry where
  family : StructureFamily
  shape : List Nat
  chunks : List (List Nat)
  data_type : DType
  columns : List String
  metadata : JsonVal
  keys : List String

/-- HTTP-level outcome of a handler: 404, 400 with detail, or 500 (either an
explicit `HTTPException` or an exception the handler does not catch). -/
inductive HttpError where
  | notFound
  | badRequest (detail : String)
  | internalError (detail : String)
deriving DecidableEq

/-- Failure modes of the external storage read (`entry.read`): `IndexError`
(caught by the handler) or any other exception (uncaught, hence a 500). -/
inductive ReadError where
  | indexError
  | otherFault (msg : String)

def parseErrMsg : String := "ValueError: invalid literal for int with base 10"

def convertErrMsg : String := "TypeError: max expects an iterable argument"

def invalidBlockMsg : String :=
  "Requested zarr block index is inconsistent with the shape of array."

def outOfRangeMsg : String := "Index of zarr block is out of range."

/-- Python `max(*tc, 1)` for a list `tc` of naturals: for a non-empty list it
is the maximum of the entries and `1`; for an empty list it is `max(1)`, which
raises `TypeError` (modelled as `none`). -/
def pyMaxSplat1 : List Nat → Option Nat
  | [] => none
  | x :: xs => some ((x :: xs).foldl max 1)

/-- `convert_chunks_for_zarr`:
`[min(ZARR_BLOCK_SIZE, max(*tc, 1)) for tc in tiled_chunks]`, with `none`
modelling the `TypeError` raised on a dimension with no chunk entries. -/
def convert_chunks_for_zarr : List (List Nat) → Option (List Nat)
  | [] => some []
  | tc :: rest =>
    match pyMaxSplat1 tc, convert_chunks_for_zarr rest with
    | some m, some ms => some (min ZARR_BLOCK_SIZE m :: ms)
    | _, _ => none

/-- Python `str.split(",")` on the character list: `""` yields `[""]`, and
separators delimit (possibly empty) groups. -/
def splitCommaChars : List Char → List (List Char)
  | [] => [[]]
  | c :: rest =>
    if c = ',' then [] :: splitCommaChars rest
    else
      match splitCommaChars rest with
      | g :: gs => (c :: g) :: gs
      | [] => [[c]]

/-- Digits to the natural number they denote (most significant first). -/
def digitsToNat (ds : List Char) : Nat :=
  ds.foldl (fun a c => a * 10 + (c.toNat - 48)) 0

/-- Python `int(s)` on a character group: optional surrounding spaces, an
optional sign, then at least one digit; anything else raises `ValueError`
(modelled as `none`).  (The underscore digit grouping of Python is not modelled;
no claim depends on it.) -/
def pyIntChars (xs : List Char) : Option Int :=
  let ys := ((xs.dropWhile (fun c => c = ' ')).reverse.dropWhile
    (fun c => c = ' ')).reverse
  match ys with
  | '-' :: ds =>
    if ds ≠ [] ∧ ds.all Char.isDigit then some (-(digitsToNat ds : Int)) else none
  | '+' :: ds =>
    if ds ≠ [] ∧ ds.all Char.isDigit then some (digitsToNat ds : Int) else none
  | ds =>
    if ds ≠ [] ∧ ds.all Char.isDigit then some (digitsToNat ds : Int) else none

/-- `[int(i) for i in block.split(",")]`, `none` when any component raises. -/
def parseBlockIndices (block : String) : Option (List Int) :=
  (splitCommaChars block.toList).mapM pyIntChars

/-- `str(request.url).split("?")[0].rstrip("/")`. -/
def stripUrl (url : String) : String :=
  String.mk (((url.toList.takeWhile (fun c => c ≠ '?')).reverse.dropWhile
    (fun c => c = '/')).reverse)

/-- A dense numpy array: its shape and its row-major (`order="C"`) data. -/
structure NDArr (α : Type) where
  shape : List Nat
  data : List α
deriving DecidableEq

/-- Split row-major data into the `n` top-level rows of `stride` elements. -/
def chunkRows (stride n : Nat) (d : List α) : List (List α) :=
  (List.range n).map (fun i => (d.drop (i * stride)).take stride)

/-- Shape of a numpy basic slice `a[s0:e0, s1:e1, ...]` (out-of-range bounds
clip; a missing trailing slice leaves the dimension whole). -/
def sliceShape : List Nat → List (Nat × Nat) → List Nat
  | sh, [] => sh
  | [], _ => []
  | n :: ns, (s, e) :: rest => (min e n - min s n) :: sliceShape ns rest

/-- Row-major data of a numpy basic slice. -/
def sliceData : List Nat → List (Nat × Nat) → List α → List α
  | _, [], d => d
  | [], _, d => d
  | n :: ns, (s, e) :: rest, d =>
    ((((chunkRows ns.prod n d).drop s).take (e - s)).map
      (fun r => sliceData ns rest r)).flatten

/-- Numpy basic slicing with clipping, `a[s0:e0, s1:e1, ...]`. -/
def NDArr.slice (a : NDArr α) (sls : List (Nat × Nat)) : NDArr α :=
  ⟨sliceShape a.shape sls, sliceData a.shape sls a.data⟩

/-- Shape after `np.pad(a, [(0, p) for p in pads])`. -/
def padShape : List Nat → List Nat → List Nat
  | [], _ => []
  | sh, [] => sh
  | n :: ns, p :: ps => (n + p) :: padShape ns ps

/-- Row-major data after `np.pad(a, [(0, p) for p in pads], mode="constant")`:
each row is padded recursively, then `p` zero rows of the padded inner shape
are appended. -/
def padData (zero : α) : List Nat → List Nat → List α → List α
  | [], _, d => d
  | _, [], d => d
  | n :: ns, p :: ps, d =>
    ((chunkRows ns.prod n d).map (fun r => padData zero ns ps r)).flatten
      ++ List.replicate (p * (padShape ns ps).prod) zero

/-- `np.pad(a, [(0, p) for p in pads], mode="constant")` (right padding with
the zero value of the dtype). -/
def NDArr.pad (zero : α) (a : NDArr α) (pads : List Nat) : NDArr α :=
  ⟨padShape a.shape pads, padData zero a.shape pads a.data⟩

/-- Lines 211-229 of the handler: invoke the external read on the computed
slices, map its `IndexError` to a 400, let any other fault surface as a 500,
then right-pad the dense result so the block reaches the uniform block shape:
`padding_size = [max(0, sl.stop - sh) for sl, sh in zip(block_slices, shape)]`
followed by `np.pad` when any padding is due. -/
def serveBlock (zero : α) (shape : List Nat)
    (read : List (Int × Int) → Except ReadError (NDArr α))
    (sls : List (Int × Int)) : Except HttpError (NDArr α) :=
  match read sls with
  | .error .indexError => .error (.badRequest outOfRangeMsg)
  | .error (.otherFault m) => .error (.internalError m)
  | .ok arr =>
    let padsZ : List Int := (sls.zip shape).map (fun p => max 0 (p.1.2 - (p.2 : Int)))
    .ok (if 0 < padsZ.sum then NDArr.pad zero arr (padsZ.map Int.toNat) else arr)

/-- The block branch of `get_zarr_array` (lines 189-229), producing the dense
padded block that is subsequently encoded: parse the comma-separated block
coordinate (an unhandled `ValueError` is a 500), translate the chunk spec (an
unhandled `TypeError` is a 500), reject a length mismatch with a 400 unless
the scalar `[]`-vs-`[0]` exception applies, compute
`slice(i * c, (i + 1) * c)` per dimension, and serve the block. -/
def fetchBlockArray (zero : α) (e : ZarrEntry)
    (read : List (Int × Int) → Except ReadError (NDArr α))
    (bstr : String) : Except HttpError (NDArr α) :=
  match parseBlockIndices bstr with
  | none => .error (.internalError parseErrMsg)
  | some idx =>
    match convert_chunks_for_zarr e.chunks with
    | none => .error (.internalError convertErrMsg)
    | some spec =>
      if ¬(spec = [] ∧ idx = [0]) ∧ spec.length ≠ idx.length then
        .error (.badRequest invalidBlockMsg)
      else
        serveBlock zero e.shape read
          (List.zipWith (fun (i : Int) (c : Nat) => (i * (c : Int), (i + 1) * (c : Int)))
            idx spec)

/-- Body of a data-endpoint response: a JSON document (listings and the
placeholder) or the binary bytes of one encoded block. -/
inductive ZarrBody where
  | jsonB (j : JsonVal)
  | blockB (b : List Nat)

/-- The catch-all data-path GET handler `get_zarr_array`: container and table entries
(and structured-dtype arrays) answer with the virtual-directory listing built
from the stripped request URL; array and sparse entries answer a block request
by fetching, padding and encoding the addressed block (`encode` models
`zarr_codec.encode`, with the `tobytes` fallback when the codec result is not
a byte string), and answer a blockless request with the empty-object placeholder. -/
def get_zarr_array (zero : α) (encode : NDArr α → Option (List Nat))
    (tobytes : NDArr α → List Nat) (url : String) (block : Option String)
    (e : ZarrEntry)
    (read : List (Int × Int) → Except ReadError (NDArr α)) :
    Except HttpError ZarrBody :=
  let u := stripUrl url
  if e.family = .container then
    .ok (.jsonB (.arr (e.keys.map (fun k => .str (u ++ "/" ++ k)))))
  else if e.family = .table then
    .ok (.jsonB (.arr (e.columns.map (fun k => .str (u ++ "/" ++ k)))))
  else if e.family = .array ∧ e.data_type.isStruct = true then
    .ok (.jsonB (.arr (e.data_type.fieldNames.map (fun k => .str (u ++ "/" ++ k)))))
  else
    match block with
    | some bstr =>
      (fetchBlockArray zero e read bstr).map (fun arr =>
        .blockB (match encode arr with | some b => b | none => tobytes arr))
    | none => .ok (.jsonB (.obj []))

/-- The group marker document: a JSON object with the single key `zarr_format`
mapped to `2`. -/
def groupMarker : JsonVal := .obj [("zarr_format", .num 2)]

/-- The `.zgroup` handler: a plain-primitive array should respond to
`.zarray` instead, so it gets a 404; structured arrays, containers and tables
get the group marker.  (`SecureEntry` admits only the `table`, `container`
and `array` families here; a sparse entry is rejected before the handler.) -/
def get_zarr_group_metadata (e : ZarrEntry) : Except HttpError JsonVal :=
  if e.family = .sparse then .error .notFound
  else if e.family = .array ∧ e.data_type.isStruct = false then .error .notFound
  else .ok groupMarker

/-- `ZARR_CODEC_SPEC` as the JSON value embedded in `.zarray` documents. -/
def codecSpecJson : JsonVal :=
  .obj [("blocksize", .num 0), ("clevel", .num 5), ("cname", .str "lz4"),
    ("id", .str "blosc"), ("shuffle", .num 1)]

/-- The `.zarray` document built from the structure description and the
translated uniform block shape. -/
def zarrayDoc (e : ZarrEntry) (spec : List Nat) : JsonVal :=
  .obj [("chunks", .arr (spec.map (fun n => .num n))),
    ("compressor", codecSpecJson),
    ("dtype", .str e.data_type.toNumpyStr),
    ("fill_value", .num 0),
    ("filters", .null),
    ("order", .str ZARR_BYTE_ORDER),
    ("shape", .arr (e.shape.map (fun n => .num n))),
    ("zarr_format", .num 2)]

/-- The `.zarray` handler: only `array` and `sparse` entries are admitted
(`SecureEntry`); a structured array is treated as a DataFrame and gets a 404;
otherwise the document is built inside `try`, any exception (notably the
chunk-translation `TypeError`) becoming a 500. -/
def get_zarr_array_metadata (e : ZarrEntry) : Except HttpError JsonVal :=
  if e.family = .table ∨ e.family = .container then .error .notFound
  else if e.data_type.isStruct = true then .error .notFound
  else
    match convert_chunks_for_zarr e.chunks with
    | none => .error (.internalError convertErrMsg)
    | some spec => .ok (zarrayDoc e spec)

/-- The `.zattrs` handler: a plain-primitive array is not treated as a group
and gets a 404; every other admitted entry answers with its metadata mapping
passed through `json.dumps` unchanged. -/
def get_zarr_attrs (e : ZarrEntry) : Except HttpError JsonVal :=
  if e.family = .sparse then .error .notFound
  else if e.family = .array ∧ e.data_type.isStruct = false then .error .notFound
  else .ok e.metadata

/-- The storage-read behaviour assumed by the padding claim: the read returns
exactly the requested slice of the stored array, clipped to the logical
shape (numpy basic-slicing semantics for non-negative bounds). -/
def clipRead (stored : NDArr α) :
    List (Int × Int) → Except ReadError (NDArr α) :=
  fun sls => .ok (stored.slice (sls.map (fun p => (p.1.toNat, p.2.toNat))))

/-- The per-dimension read ranges `[i * c, (i + 1) * c)` over naturals. -/
def blockSlices (idxN spec : List Nat) : List (Nat × Nat) :=
  List.zipWith (fun n c => (n * c, (n + 1) * c)) idxN spec

/-- The per-dimension padding amounts `max(0, stop - sh)` over naturals. -/
def padSizes (sls : List (Nat × Nat)) (shape : List Nat) : List Nat :=
  (sls.zip shape).map (fun p => p.1.2 - p.2)

/-- A representative array entry: shape `[25]`, irregular chunks `[[10,10,5]]`
(Scenario B of the specification). -/
def entry25 : ZarrEntry :=
  ⟨.array, [25], [[10, 10, 5]], .primitive "<i8", [], .obj [], []⟩

/-- The stored values `0, 1, ..., 24` behind `entry25`. -/
def stored25 : NDArr Int := ⟨[25], (List.range 25).map Int.ofNat⟩

/-- Shape `[0]` with a per-dimension empty chunk spec, the encoding the
data model of the specification forces for a zero-length dimension. -/
def scalarEntryEmpty : ZarrEntry :=
  ⟨.array, [0], [[]], .primitive "<i8", [], .obj [], []⟩

/-- Shape `[0]` with the single zero-sized chunk entry `[[0]]`, the encoding
dask/tiled actually produce for a zero-length dimension. -/
def scalarEntryZero : ZarrEntry :=
  ⟨.array, [0], [[0]], .primitive "<i8", [], .obj [], []⟩

/-- An array entry with a structured dtype (virtual table). -/
def structEntry : ZarrEntry :=
  ⟨.array, [4], [[4]], .structT ["x", "y"], [], .obj [], []⟩

/-- An array entry with a plain primitive dtype. -/
def primEntry : ZarrEntry :=
  ⟨.array, [4], [[4]], .primitive "<f8", [], .obj [], []⟩

/-- A table entry with two columns and a non-empty metadata mapping. -/
def tableEntry : ZarrEntry :=
  ⟨.table, [], [], .primitive "", ["c1", "c2"], .obj [("temperature", .num 300)], []⟩

/-- A container entry with children `["a", "b"]` (Scenario C). -/
def containerEntry : ZarrEntry :=
  ⟨.container, [], [], .primitive "", [], .obj [], ["a", "b"]⟩

/-- A codec collaborator whose result is never a byte string (forcing the
`tobytes` fallback); the data claims never reach the encode step. -/
def noEncode : NDArr Int → Option (List Nat) := fun _ => none

/-- A `tobytes` collaborator placeholder. -/
def rawBytes : NDArr Int → List Nat := fun a => a.data.map Int.toNat

theorem foldl_max_init (l : List Nat) (a : Nat) :
    l.foldl max a = max a (l.foldl max 0) := by
  induction l generalizing a with
  | nil => simp
  | cons b l ih =>
    simp only [List.foldl_cons]
    rw [ih (max a b), ih (max 0 b)]
    omega

/-- C2: for every chunk spec with at least one entry per dimension, the
chunk-grid translation is total and returns, per dimension, exactly
`min(ZARR_BLOCK_SIZE, max(entries, 1))`, so every returned block size `v`
satisfies `1 ≤ v ≤ ZARR_BLOCK_SIZE`. -/
theorem convert_chunks_total (chunks : List (List Nat))
    (h : ∀ tc ∈ chunks, tc ≠ []) :
    convert_chunks_for_zarr chunks
      = some (chunks.map (fun tc => min ZARR_BLOCK_SIZE (max (tc.foldl max 0) 1)))
    ∧ ∀ v ∈ chunks.map (fun tc => min ZARR_BLOCK_SIZE (max (tc.foldl max 0) 1)),
        1 ≤ v ∧ v ≤ ZARR_BLOCK_SIZE := by
  constructor
  · induction chunks with
    | nil => rfl
    | cons tc rest ih =>
      have htc : tc ≠ [] := h tc (by simp)
      have hrest := ih (fun x hx => h x (List.mem_cons_of_mem _ hx))
      match tc, htc with
      | x :: xs, _ =>
        simp only [convert_chunks_for_zarr, pyMaxSplat1, hrest, List.map_cons]
        rw [foldl_max_init (x :: xs) 1]
        rw [show max 1 (List.foldl max 0 (x :: xs))
          = max (List.foldl max 0 (x :: xs)) 1 from by omega]
  · intro v hv
    obtain ⟨tc, _, rfl⟩ := List.mem_map.1 hv
    refine ⟨le_min ?_ (le_max_right _ _), min_le_left _ _⟩
    norm_num [ZARR_BLOCK_SIZE]

/-- C2 witness: chunk spec `[[10, 10, 5]]` translates to `[10]`, within
bounds. -/
theorem convert_chunks_total_witness :
    convert_chunks_for_zarr [[10, 10, 5]] = some [10]
    ∧ (1 ≤ 10 ∧ 10 ≤ ZARR_BLOCK_SIZE) :=
  ⟨((convert_chunks_total [[10, 10, 5]] (by decide)).1).trans rfl,
   (convert_chunks_total [[10, 10, 5]] (by decide)).2 10 (by decide)⟩

/-- C3: the claim says a dimension with no chunk entries yields block size 1
and block `"0"` one zero-padded element, and the docstring of the function
demands a floor of one; but `max(*tc, 1)` on an empty `tc` is Python `max(1)`,
which raises `TypeError`, so the translation crashes and the block request is
a 500 rather than one zero element.  With the zero-sized single chunk entry
`[[0]]` the intended behaviour does hold: block size 1 and one zero-padded
element. -/
theorem scalar_chunks_typeerror :
    convert_chunks_for_zarr [[]] = none
    ∧ get_zarr_array (0 : Int) noEncode rawBytes "http://h/x" (some "0")
        scalarEntryEmpty (clipRead ⟨[0], []⟩)
        = .error (.internalError convertErrMsg)
    ∧ convert_chunks_for_zarr [[0]] = some [1]
    ∧ fetchBlockArray (0 : Int) scalarEntryZero (clipRead ⟨[0], []⟩) "0"
        = .ok ⟨[1], [0]⟩ :=
  ⟨rfl, rfl, rfl, rfl⟩

/-- C4: a block coordinate whose length differs from the translated block
shape is rejected with a 400 before the storage read is consulted (the result
does not depend on `read` at all), with the single exception of the scalar
case, where an empty block shape addressed by `[0]` proceeds to the read. -/
theorem block_length_check (e : ZarrEntry)
    (read : List (Int × Int) → Except ReadError (NDArr Int))
    (bstr : String) (idx : List Int) (spec : List Nat)
    (hparse : parseBlockIndices bstr = some idx)
    (hconv : convert_chunks_for_zarr e.chunks = some spec) :
    (idx.length ≠ spec.length → ¬(spec = [] ∧ idx = [0]) →
      fetchBlockArray (0 : Int) e read bstr = .error (.badRequest invalidBlockMsg))
    ∧ (spec = [] → idx = [0] →
      fetchBlockArray (0 : Int) e read bstr = serveBlock 0 e.shape read []) := by
  constructor
  · intro hne hexc
    have hc : ¬(spec = [] ∧ idx = [0]) ∧ spec.length ≠ idx.length :=
      ⟨hexc, Ne.symm hne⟩
    simp only [fetchBlockArray, hparse, hconv, if_pos hc]
  · intro hs hi
    subst hs; subst hi
    simp [fetchBlockArray, hparse, hconv]

/-- C4 witness: coordinate `"1,2"` against the one-dimensional `entry25` is a
400 for any read; the scalar entry (shape `[]`, chunks `[]`) accepts `"0"`. -/
theorem block_length_check_witness :
    fetchBlockArray (0 : Int) entry25 (clipRead stored25) "1,2"
      = .error (.badRequest invalidBlockMsg)
    ∧ fetchBlockArray (0 : Int)
        ⟨.array, [], [], .primitive "<i8", [], .obj [], []⟩
        (clipRead ⟨[], [7]⟩) "0"
      = serveBlock 0 [] (clipRead (⟨[], [7]⟩ : NDArr Int)) [] :=
  ⟨(block_length_check entry25 (clipRead stored25) "1,2" [1, 2] [10] rfl rfl).1
      (by decide) (by decide),
   (block_length_check ⟨.array, [], [], .primitive "<i8", [], .obj [], []⟩
      (clipRead ⟨[], [7]⟩) "0" [0] [] rfl rfl).2 rfl rfl⟩

/-- C5 counterexample: the claim says a malformed block coordinate yields
`InvalidBlockError` (bad-request); in the code the `int(i)` parse is outside
any `try`, so the `ValueError` escapes and the request is a 500 internal
error, not a 400. -/
theorem malformed_block_cex :
    fetchBlockArray (0 : Int) entry25 (clipRead stored25) "a"
      = .error (.internalError parseErrMsg) := rfl

/-- C5 amended: a block string with a malformed (non-integer) component makes
the handler fail with an unhandled parse error, surfaced as an internal
error, for every entry and every read. -/
theorem malformed_block_internal (e : ZarrEntry)
    (read : List (Int × Int) → Except ReadError (NDArr Int)) (bstr : String)
    (hparse : parseBlockIndices bstr = none) :
    fetchBlockArray (0 : Int) e read bstr = .error (.internalError parseErrMsg) := by
  simp only [fetchBlockArray, hparse]

/-- C5 witness: the empty block string has an empty (hence non-numeric)
component. -/
theorem malformed_block_internal_witness :
    fetchBlockArray (0 : Int) entry25 (clipRead stored25) ""
      = .error (.internalError parseErrMsg) :=
  malformed_block_internal entry25 (clipRead stored25) "" rfl

/-- C6: for a well-formed, length-matching block coordinate, an `IndexError`
from the external read is mapped to a 400 (out of range), while any other
fault from the read propagates with its message as a 500. -/
theorem read_fault_mapping (e : ZarrEntry)
    (read : List (Int × Int) → Except ReadError (NDArr Int))
    (bstr : String) (idx : List Int) (spec : List Nat)
    (hparse : parseBlockIndices bstr = some idx)
    (hconv : convert_chunks_for_zarr e.chunks = some spec)
    (hlen : idx.length = spec.length) :
    (read (List.zipWith (fun (i : Int) (c : Nat) => (i * (c : Int), (i + 1) * (c : Int)))
        idx spec) = .error .indexError →
      fetchBlockArray (0 : Int) e read bstr = .error (.badRequest outOfRangeMsg))
    ∧ (∀ m, read (List.zipWith (fun (i : Int) (c : Nat) => (i * (c : Int), (i + 1) * (c : Int)))
        idx spec) = .error (.otherFault m) →
      fetchBlockArray (0 : Int) e read bstr = .error (.internalError m)) := by
  have hc : ¬(¬(spec = [] ∧ idx = [0]) ∧ spec.length ≠ idx.length) :=
    fun h => h.2 hlen.symm
  constructor
  · intro hr
    simp only [fetchBlockArray, hparse, hconv, if_neg hc, serveBlock, hr]
  · intro m hr
    simp only [fetchBlockArray, hparse, hconv, if_neg hc, serveBlock, hr]

/-- C6 witness: both read failure modes at block `"2"` of `entry25`. -/
theorem read_fault_mapping_witness :
    fetchBlockArray (0 : Int) entry25 (fun _ => .error .indexError) "2"
      = .error (.badRequest outOfRangeMsg)
    ∧ fetchBlockArray (0 : Int) entry25 (fun _ => .error (.otherFault "disk failure")) "2"
      = .error (.internalError "disk failure") :=
  ⟨(read_fault_mapping entry25 (fun _ => .error .indexError) "2" [2] [10]
      rfl rfl rfl).1 rfl,
   (read_fault_mapping entry25 (fun _ => .error (.otherFault "disk failure")) "2" [2] [10]
      rfl rfl rfl).2 "disk failure" rfl⟩

theorem serveBlock_clipRead (zero : α) (shape : List Nat) (stored : NDArr α)
    (sls : List (Int × Int)) :
    serveBlock zero shape (clipRead stored) sls
      = .ok (if 0 < ((sls.zip shape).map (fun p => max 0 (p.1.2 - (p.2 : Int)))).sum
          then NDArr.pad zero (stored.slice (sls.map (fun p => (p.1.toNat, p.2.toNat))))
            (((sls.zip shape).map (fun p => max 0 (p.1.2 - (p.2 : Int)))).map Int.toNat)
          else stored.slice (sls.map (fun p => (p.1.toNat, p.2.toNat)))) := rfl

theorem slicesZ_eq (idxN spec : List Nat) :
    List.zipWith (fun (i : Int) (c : Nat) => (i * (c : Int), (i + 1) * (c : Int)))
        (idxN.map Int.ofNat) spec
      = (blockSlices idxN spec).map (fun p => ((p.1 : Int), (p.2 : Int))) := by
  induction idxN generalizing spec with
  | nil => simp [blockSlices]
  | cons n ns ih =>
    cases spec with
    | nil => simp [blockSlices]
    | cons c cs =>
      simp only [List.map_cons, List.zipWith_cons_cons, ih]
      rw [show blockSlices (n :: ns) (c :: cs)
        = (n * c, (n + 1) * c) :: blockSlices ns cs from rfl, List.map_cons]
      congr 1

theorem toNat_slices (l : List (Nat × Nat)) :
    (l.map (fun p => ((p.1 : Int), (p.2 : Int)))).map (fun q => (q.1.toNat, q.2.toNat))
      = l := by
  rw [List.map_map]
  have hcomp : ((fun q : Int × Int => (q.1.toNat, q.2.toNat))
      ∘ fun p : Nat × Nat => ((p.1 : Int), (p.2 : Int))) = fun p => p := by
    funext p
    simp
  rw [hcomp]
  exact List.map_id _

theorem pads_eq (l : List (Nat × Nat)) (shape : List Nat) :
    (((l.map (fun p => ((p.1 : Int), (p.2 : Int)))).zip shape).map
        (fun p => (max 0 (p.1.2 - (p.2 : Int))).toNat))
      = padSizes l shape := by
  induction l generalizing shape with
  | nil => simp [padSizes]
  | cons q l ih =>
    cases shape with
    | nil => simp [padSizes]
    | cons sh shs =>
      have hh : (max 0 ((q.2 : Int) - (sh : Int))).toNat = q.2 - sh := by omega
      simp [padSizes, List.zip_cons_cons, ih, hh]

theorem padShape_sliceShape_core :
    ∀ (idxN spec shape : List Nat), idxN.length = spec.length →
      List.Forall₂ (fun (p : Nat × Nat) (sh : Nat) => p.1 * p.2 ≤ sh)
        (idxN.zip spec) shape →
      padShape (sliceShape shape (blockSlices idxN spec))
        (padSizes (blockSlices idxN spec) shape) = spec := by
  intro idxN
  induction idxN with
  | nil =>
    intro spec shape hlen hf
    have hs : spec = [] := List.length_eq_zero.mp hlen.symm
    subst hs
    cases hf
    rfl
  | cons n ns ih =>
    intro spec shape hlen hf
    cases spec with
    | nil => simp at hlen
    | cons c cs =>
      rw [List.zip_cons_cons] at hf
      cases shape with
      | nil => cases hf
      | cons sh shs =>
        obtain ⟨h1, h2⟩ := List.forall₂_cons.1 hf
        have hb : blockSlices (n :: ns) (c :: cs)
            = (n * c, (n + 1) * c) :: blockSlices ns cs := rfl
        rw [hb]
        simp only [sliceShape, padSizes, List.zip_cons_cons, List.map_cons, padShape,
          List.cons.injEq]
        constructor
        · have h1' : n * c ≤ sh := h1
          rw [show (n + 1) * c = n * c + c from by ring]
          rw [show (n + 1) * c = n * c + c from by ring] at *
          omega
        · exact ih cs shs (by simpa using hlen) h2

theorem padShape_zeroPads :
    ∀ (sh ps : List Nat), (∀ p ∈ ps, p = 0) → padShape sh ps = sh := by
  intro sh
  induction sh with
  | nil => intro ps _; cases ps <;> rfl
  | cons n ns ih =>
    intro ps hp
    cases ps with
    | nil => rfl
    | cons p ps' =>
      have h0 : p = 0 := hp p (by simp)
      simp [padShape, h0, ih ps' (fun q hq => hp q (List.mem_cons_of_mem _ hq))]

theorem sum_nonpos_zero :
    ∀ (l : List Int), (∀ x ∈ l, 0 ≤ x) → l.sum ≤ 0 → ∀ x ∈ l, x = 0 := by
  intro l
  induction l with
  | nil => simp
  | cons a l ih =>
    intro hpos hsum x hx
    have ha : 0 ≤ a := hpos a (by simp)
    have hl : 0 ≤ l.sum := List.sum_nonneg (fun y hy => hpos y (List.mem_cons_of_mem _ hy))
    rw [List.sum_cons] at hsum
    rcases List.mem_cons.1 hx with rfl | hx'
    · omega
    · exact ih (fun y hy => hpos y (List.mem_cons_of_mem _ hy)) (by omega) x hx'

/-- C1 (amended): under the premises of the claim - chunk entries summing to the
shape, a well-formed coordinate of matching length, and a storage read that
returns exactly the requested slice clipped to the logical shape - every
block whose start offset lies within the logical extent in every dimension
(`idxN[k] * spec[k] ≤ shape[k]`, which covers every block of the uniform
grid, including the final partial one) comes back zero-padded to exactly the
uniform block shape `spec` in every dimension.  The amendment restricts the
claim to such in-grid coordinates: a coordinate past the grid is *not*
rejected and yields an oversized block (see the counterexample). -/
theorem block_shape_uniform (e : ZarrEntry) (stored : NDArr Int) (bstr : String)
    (idxN : List Nat) (spec : List Nat)
    (_hsum : List.Forall₂ (fun (tc : List Nat) (sh : Nat) => tc.sum = sh)
      e.chunks e.shape)
    (hparse : parseBlockIndices bstr = some (idxN.map Int.ofNat))
    (hconv : convert_chunks_for_zarr e.chunks = some spec)
    (hlen : idxN.length = spec.length)
    (hgrid : List.Forall₂ (fun (p : Nat × Nat) (sh : Nat) => p.1 * p.2 ≤ sh)
      (idxN.zip spec) e.shape)
    (hstored : stored.shape = e.shape) :
    ∃ a, fetchBlockArray (0 : Int) e (clipRead stored) bstr = .ok a
      ∧ a.shape = spec := by
  have hc : ¬(¬(spec = [] ∧ (idxN.map Int.ofNat) = [0])
      ∧ spec.length ≠ (idxN.map Int.ofNat).length) := by
    intro h
    exact h.2 (by simp [hlen])
  simp only [fetchBlockArray, hparse, hconv, if_neg hc]
  rw [serveBlock_clipRead, slicesZ_eq]
  refine ⟨_, rfl, ?_⟩
  have hsl : ((blockSlices idxN spec).map
      (fun p => ((p.1 : Int), (p.2 : Int)))).map (fun q => (q.1.toNat, q.2.toNat))
      = blockSlices idxN spec := toNat_slices _
  have hpads : ((((blockSlices idxN spec).map
        (fun p => ((p.1 : Int), (p.2 : Int)))).zip e.shape).map
          (fun p => max 0 (p.1.2 - (p.2 : Int)))).map Int.toNat
      = padSizes (blockSlices idxN spec) e.shape := by
    rw [List.map_map]
    exact pads_eq _ _
  have hcore := padShape_sliceShape_core idxN spec e.shape hlen hgrid
  split
  · show padShape (sliceShape stored.shape _) _ = spec
    rw [hsl, hpads, hstored]
    exact hcore
  · show sliceShape stored.shape _ = spec
    rename ¬_ => hs
    have hz : ∀ x ∈ (((blockSlices idxN spec).map
        (fun p => ((p.1 : Int), (p.2 : Int)))).zip e.shape).map
          (fun p => max 0 (p.1.2 - (p.2 : Int))), x = 0 := by
      refine sum_nonpos_zero _ ?_ (le_of_not_lt hs)
      intro x hx
      obtain ⟨q, _, rfl⟩ := List.mem_map.1 hx
      exact le_max_left _ _
    have hzN : ∀ p ∈ padSizes (blockSlices idxN spec) e.shape, p = 0 := by
      rw [← hpads]
      intro p hp
      obtain ⟨q, hq, rfl⟩ := List.mem_map.1 hp
      rw [hz q hq]
      rfl
    rw [hsl, hstored]
    have hid := padShape_zeroPads (sliceShape e.shape (blockSlices idxN spec))
      (padSizes (blockSlices idxN spec) e.shape) hzN
    rw [← hid]
    exact hcore

/-- C1 counterexample: with the very premise of the claim (chunks `[[10,10,5]]`
summing to shape `[25]`, clipping read), the length-matching block coordinate
`"3"` lies past the uniform grid; it is not rejected, and the served block has
15 elements, not the uniform block shape 10 - so not *every* returned block
has exactly `UniformBlockShape` elements. -/
theorem block_shape_uniform_cex :
    fetchBlockArray (0 : Int) entry25 (clipRead stored25) "3"
      = .ok ⟨[15], List.replicate 15 0⟩
    ∧ ([15] : List Nat) ≠ [10] := ⟨rfl, by decide⟩

/-- C1 witness (Scenario B): shape `[25]`, chunks `[[10,10,5]]`, block `"2"`
reads `[20,30)` and is padded to exactly 10 elements. -/
theorem block_shape_uniform_witness :
    (∃ a, fetchBlockArray (0 : Int) entry25 (clipRead stored25) "2" = .ok a
      ∧ a.shape = [10])
    ∧ fetchBlockArray (0 : Int) entry25 (clipRead stored25) "2"
      = .ok ⟨[10], [20, 21, 22, 23, 24, 0, 0, 0, 0, 0]⟩ :=
  ⟨block_shape_uniform entry25 stored25 "2" [2] [10]
      (List.Forall₂.cons (by norm_num) List.Forall₂.nil) rfl rfl rfl
      (List.Forall₂.cons (by norm_num) List.Forall₂.nil) rfl,
   rfl⟩

/-- C7: an `Array` entry with a structured dtype answers the group-marker
request with exactly the `zarr_format: 2` document and the array-descriptor
request with not-found; an `Array` entry with a primitive dtype answers the
group-marker request with not-found. -/
theorem struct_array_group_role (e : ZarrEntry) (hfam : e.family = .array) :
    (e.data_type.isStruct = true →
      get_zarr_group_metadata e = .ok groupMarker
      ∧ get_zarr_array_metadata e = .error .notFound)
    ∧ (e.data_type.isStruct = false →
      get_zarr_group_metadata e = .error .notFound) := by
  refine ⟨fun hst => ⟨?_, ?_⟩, fun hst => ?_⟩
  · simp [get_zarr_group_metadata, hfam, hst]
  · simp [get_zarr_array_metadata, hfam, hst]
  · simp [get_zarr_group_metadata, hfam, hst]

/-- C7 witness: a structured-dtype array and a primitive one (Scenario D). -/
theorem struct_array_group_role_witness :
    (get_zarr_group_metadata structEntry = .ok groupMarker
      ∧ get_zarr_array_metadata structEntry = .error .notFound)
    ∧ get_zarr_group_metadata primEntry = .error .notFound :=
  ⟨(struct_array_group_role structEntry rfl).1 rfl,
   (struct_array_group_role primEntry rfl).2 rfl⟩

/-- C8: whenever the attributes endpoint answers, the body is exactly the
metadata mapping of the entry, unchanged; and a plain-primitive array answers the
attributes request with not-found. -/
theorem attrs_passthrough (e : ZarrEntry) :
    (∀ j, get_zarr_attrs e = .ok j → j = e.metadata)
    ∧ (e.family = .array → e.data_type.isStruct = false →
        get_zarr_attrs e = .error .notFound) := by
  constructor
  · intro j hj
    by_cases h1 : e.family = .sparse
    · simp [get_zarr_attrs, h1] at hj
    · by_cases h2 : e.family = .array ∧ e.data_type.isStruct = false
      · simp [get_zarr_attrs, h1, h2] at hj
      · simp [get_zarr_attrs, h1, h2] at hj
        exact hj.symm
  · intro hf hd
    simp [get_zarr_attrs, hf, hd]

/-- C8 witness: the metadata of a table entry is passed through unchanged; a
primitive array gets not-found. -/
theorem attrs_passthrough_witness :
    get_zarr_attrs tableEntry = .ok (JsonVal.obj [("temperature", .num 300)])
    ∧ JsonVal.obj [("temperature", .num 300)] = tableEntry.metadata
    ∧ get_zarr_attrs primEntry = .error .notFound :=
  ⟨rfl,
   (attrs_passthrough tableEntry).1 (JsonVal.obj [("temperature", .num 300)]) rfl,
   (attrs_passthrough primEntry).2 rfl rfl⟩

theorem head_dropWhile_not (p : α → Bool) :
    ∀ (l : List α) (a : α), (l.dropWhile p).head? = some a → p a = false := by
  intro l
  induction l with
  | nil =>
    intro a h
    simp [List.dropWhile] at h
  | cons b l ih =>
    intro a h
    by_cases hb : p b
    · rw [List.dropWhile_cons, if_pos hb] at h
      exact ih a h
    · rw [List.dropWhile_cons, if_neg hb] at h
      simp only [List.head?_cons, Option.some.injEq] at h
      subst h
      simpa using hb

/-- C9: each listing response is the JSON array of the children prefixed with
the stripped base URL and `"/"`, in order: the keys of a container as returned
by the external enumerator, the declared columns of a table, the declared
field names of a structured array (an empty child list yields the empty JSON array); and
the stripped base URL contains nothing from the query string onward and has
no trailing slash. -/
theorem listing_children (url : String) (blk : Option String) (e : ZarrEntry)
    (encode : NDArr Int → Option (List Nat)) (tobytes : NDArr Int → List Nat)
    (read : List (Int × Int) → Except ReadError (NDArr Int)) :
    (e.family = .container →
      get_zarr_array 0 encode tobytes url blk e read
        = .ok (.jsonB (.arr (e.keys.map (fun k => .str (stripUrl url ++ "/" ++ k))))))
    ∧ (e.family = .table →
      get_zarr_array 0 encode tobytes url blk e read
        = .ok (.jsonB (.arr (e.columns.map (fun k => .str (stripUrl url ++ "/" ++ k))))))
    ∧ (∀ fs, e.family = .array → e.data_type = .structT fs →
      get_zarr_array 0 encode tobytes url blk e read
        = .ok (.jsonB (.arr (fs.map (fun k => .str (stripUrl url ++ "/" ++ k))))))
    ∧ '?' ∉ (stripUrl url).toList
    ∧ (stripUrl url).toList.getLast? ≠ some '/' := by
  refine ⟨fun hf => ?_, fun hf => ?_, fun fs hf hdt => ?_, ?_, ?_⟩
  · simp [get_zarr_array, hf]
  · simp [get_zarr_array, hf]
  · simp [get_zarr_array, hf, hdt, DType.isStruct, DType.fieldNames]
  · intro hmem
    have h1 : '?' ∈ (url.toList.takeWhile (fun c => c ≠ '?')).reverse.dropWhile
        (fun c => c = '/') := List.mem_reverse.1 hmem
    have h2 : '?' ∈ (url.toList.takeWhile (fun c => c ≠ '?')).reverse :=
      (List.dropWhile_sublist _).subset h1
    have h3 : '?' ∈ url.toList.takeWhile (fun c => c ≠ '?') := List.mem_reverse.1 h2
    have h4 := List.mem_takeWhile_imp h3
    simp at h4
  · intro hlast
    have h1 : (((url.toList.takeWhile (fun c => c ≠ '?')).reverse.dropWhile
        (fun c => c = '/')).head?) = some '/' := by
      rw [← List.getLast?_reverse]
      exact hlast
    have h2 := head_dropWhile_not (fun c => c = '/') _ '/' h1
    simp at h2

/-- C9 witness (Scenario C): a container listing at `http://h/foo/?page=1`
with children `["a", "b"]` answers with the two child URLs under
`http://h/foo`, query string and trailing slash stripped. -/
theorem listing_children_witness :
    get_zarr_array (0 : Int) noEncode rawBytes "http://h/foo/?page=1" none
        containerEntry (fun _ => .error .indexError)
      = .ok (.jsonB (.arr [.str "http://h/foo/a", .str "http://h/foo/b"]))
    ∧ '?' ∉ (stripUrl "http://h/foo/?page=1").toList :=
  ⟨((listing_children "http://h/foo/?page=1" none containerEntry noEncode rawBytes
      (fun _ => .error .indexError)).1 rfl).trans rfl,
   (listing_children "http://h/foo/?page=1" none containerEntry noEncode rawBytes
      (fun _ => .error .indexError)).2.2.2.1⟩

/-- C10: a length-matching block coordinate containing a negative value is
not rejected - there is no non-negativity check - and the pipeline forwards
exactly the slices `slice(i * c, (i + 1) * c)`, negative bounds included, to
the external storage read (`serveBlock` consults `read` on those slices
first). -/
theorem negative_block_forwarded (e : ZarrEntry)
    (read : List (Int × Int) → Except ReadError (NDArr Int))
    (bstr : String) (idx : List Int) (spec : List Nat)
    (hparse : parseBlockIndices bstr = some idx)
    (hconv : convert_chunks_for_zarr e.chunks = some spec)
    (hlen : idx.length = spec.length)
    (_hneg : ∃ i ∈ idx, i < 0) :
    fetchBlockArray (0 : Int) e read bstr
      = serveBlock 0 e.shape read
          (List.zipWith (fun (i : Int) (c : Nat) => (i * (c : Int), (i + 1) * (c : Int)))
            idx spec) := by
  have hc : ¬(¬(spec = [] ∧ idx = [0]) ∧ spec.length ≠ idx.length) :=
    fun h => h.2 hlen.symm
  simp only [fetchBlockArray, hparse, hconv, if_neg hc]

/-- C10 witness: coordinate `"-1"` against `entry25` reaches the read with
the negative-bound slice `(-10, 0)`. -/
theorem negative_block_forwarded_witness :
    fetchBlockArray (0 : Int) entry25 (fun _ => .error .indexError) "-1"
      = serveBlock 0 [25] (fun _ => .error .indexError) [((-10 : Int), (0 : Int))] :=
  (negative_block_forwarded entry25 (fun _ => .error .indexError) "-1" [-1] [10]
      rfl rfl rfl ⟨-1, by decide, by decide⟩).trans rfl
